import Mathlib

/-!
Verification of the pontos release toolkit against its specification.

The developments below shallowly embed the version-calculation functions of
`pontos/release/helper.py`, the version rewriting of `pontos/version/version.py`,
the conventional-commit classifier and changelog renderer of
`pontos/changelog/conventional_commits.py`, and the control flow of
`pontos/release/prepare.py`, and prove or refute the specified properties.
-/

/-- A parsed PEP-440-style version as used by the release helpers:
`packaging.version.Version` exposes `major`, `minor`, `micro` and an optional
`dev` number, which is all `helper.py` reads. -/
structure PVersion where
  major : Nat
  minor : Nat
  micro : Nat
  dev : Option Nat
deriving DecidableEq, Repr

/-- Rendering of a three-component version, as produced by the f-strings
`f"{major}.{minor}.{micro}"` in `helper.py` (months and micros are ints,
so no zero padding). -/
def verStr3 (a b c : Nat) : String :=
  toString a ++ "." ++ toString b ++ "." ++ toString c

/-- Canonical string of a `PVersion`, with the `.devN` suffix when present. -/
def verString (v : PVersion) : String :=
  verStr3 v.major v.minor v.micro ++
    (match v.dev with
     | some n => ".dev" ++ toString n
     | none => "")

/-- The version with its dev marker removed (major.minor.micro kept). -/
def stripDev (v : PVersion) : PVersion :=
  ⟨v.major, v.minor, v.micro, none⟩

/-- The version with micro incremented by one and no dev marker. -/
def bumpMicro (v : PVersion) : PVersion :=
  ⟨v.major, v.minor, v.micro + 1, none⟩

/-- Embedding of `calculate_calendar_version` from `pontos/release/helper.py`
(lines 72-109).  `yy` is `today.year % 100` and `mm` is `today.month`.
`none` models the `sys.exit(1)` branch; `some s` models returning the version
string `s`.  The first guard is, literally as in the source,
`major < yy or minor < mm`. -/
def calculate_calendar_version (cur : PVersion) (yy mm : Nat) : Option String :=
  if cur.major < yy ∨ cur.minor < mm then
    some (verStr3 yy mm 0)
  else if cur.major = yy ∧ cur.minor = mm then
    if cur.dev = none then
      some (verStr3 yy mm (cur.micro + 1))
    else
      some (verStr3 yy mm cur.micro)
  else
    none

/-- Embedding of `get_next_patch_version` from `pontos/release/helper.py`
(lines 144-163): strip the dev marker when one is present, otherwise
increment micro. -/
def get_next_patch_version (cur : PVersion) : String :=
  if cur.dev ≠ none then
    verStr3 cur.major cur.minor cur.micro
  else
    verStr3 cur.major cur.minor (cur.micro + 1)

/-- Modelled from the spec: `check_develop` is defined in
`pontos/version/helper.py`, which is not among the provided sources; per the
glossary, a dev version is a version carrying a dev (pre-release) marker, so
`check_develop` reports whether the version has one. -/
def checkDevelop (v : PVersion) : Bool :=
  v.dev.isSome

/-- Embedding of the version-string computation of
`VersionCommand.update_version` in `pontos/version/version.py` (lines 159-167):
after normalisation, if the version already is a develop version the `develop`
flag is reset, and only when the flag is still set is `.dev1` appended.  The
resulting string is the one written to both version files. -/
def update_version_string (v : PVersion) (develop : Bool) : String :=
  let develop2 := if checkDevelop v && develop then false else develop
  if develop2 then verString v ++ ".dev1" else verString v

/-- C2: the claim says every current version ahead of today's slot
(lexicographically greater (major, minor)) is a fatal error, but the source
guard `major < yy or minor < mm` lets the version 23.5.0 through when today
is year 22, month 7: (23, 5) is lexicographically greater than (22, 7), yet
the function returns "22.7.0" (a downgrade) instead of exiting. -/
theorem calculate_calendar_version_ahead_not_fatal :
    (22 < 23 ∧ calculate_calendar_version ⟨23, 5, 0, none⟩ 22 7 = some "22.7.0") :=
  ⟨by decide, by decide⟩

/-- C4: when the current version's (major, minor) equals today's (yy, mm),
`calculate_calendar_version` keeps micro unchanged for dev versions and
increments micro for final versions. -/
theorem calculate_calendar_version_current_month (cur : PVersion) (yy mm : Nat)
    (h1 : cur.major = yy) (h2 : cur.minor = mm) :
    (cur.dev ≠ none →
      calculate_calendar_version cur yy mm = some (verStr3 yy mm cur.micro)) ∧
    (cur.dev = none →
      calculate_calendar_version cur yy mm = some (verStr3 yy mm (cur.micro + 1))) := by
  subst h1
  subst h2
  constructor
  · intro hdev
    simp [calculate_calendar_version, hdev]
  · intro hdev
    simp [calculate_calendar_version, hdev]

/-- Witness for C4 at concrete inputs: 22.7.1.dev3 stays at micro 1,
22.7.1 (final) moves to micro 2, with today = (22, 7). -/
theorem calculate_calendar_version_current_month_witness :
    calculate_calendar_version ⟨22, 7, 1, some 3⟩ 22 7 = some (verStr3 22 7 1) ∧
    calculate_calendar_version ⟨22, 7, 1, none⟩ 22 7 = some (verStr3 22 7 2) :=
  ⟨(calculate_calendar_version_current_month ⟨22, 7, 1, some 3⟩ 22 7 rfl rfl).1
      (by decide),
   (calculate_calendar_version_current_month ⟨22, 7, 1, none⟩ 22 7 rfl rfl).2 rfl⟩

/-- C5: every current version whose (major, minor) is lexicographically less
than today's (yy, mm) yields the version string "yy.mm.0". -/
theorem calculate_calendar_version_behind (cur : PVersion) (yy mm : Nat)
    (h : cur.major < yy ∨ (cur.major = yy ∧ cur.minor < mm)) :
    calculate_calendar_version cur yy mm = some (verStr3 yy mm 0) := by
  rcases h with h | ⟨_, h2⟩
  · simp [calculate_calendar_version, h]
  · simp [calculate_calendar_version, Or.inr h2]

/-- Witness for C5: 21.4.1.dev3 with today = (22, 7) gives "22.7.0", covering
the major-behind case, and 22.5.9 with today = (22, 7) covers the equal-major,
minor-behind case. -/
theorem calculate_calendar_version_behind_witness :
    calculate_calendar_version ⟨21, 4, 1, some 3⟩ 22 7 = some (verStr3 22 7 0) ∧
    calculate_calendar_version ⟨22, 5, 9, none⟩ 22 7 = some (verStr3 22 7 0) :=
  ⟨calculate_calendar_version_behind ⟨21, 4, 1, some 3⟩ 22 7 (by decide),
   calculate_calendar_version_behind ⟨22, 5, 9, none⟩ 22 7 (by decide)⟩

/-- C8: `get_next_patch_version` strips a dev marker without incrementing
(result renders exactly the dev-stripped version), and increments micro by one
when no dev marker is present. -/
theorem get_next_patch_version_spec (cur : PVersion) :
    (cur.dev ≠ none → get_next_patch_version cur = verString (stripDev cur)) ∧
    (cur.dev = none → get_next_patch_version cur = verString (bumpMicro cur)) := by
  constructor
  · intro hdev
    simp [get_next_patch_version, verString, stripDev, hdev]
  · intro hdev
    simp [get_next_patch_version, verString, bumpMicro, hdev]

/-- Witness for C8: 20.4.1.dev3 maps to "20.4.1" and 20.6.1 maps
to "20.6.2". -/
theorem get_next_patch_version_spec_witness :
    (get_next_patch_version ⟨20, 4, 1, some 3⟩ = verString (stripDev ⟨20, 4, 1, some 3⟩) ∧
      get_next_patch_version ⟨20, 4, 1, some 3⟩ = "20.4.1") ∧
    (get_next_patch_version ⟨20, 6, 1, none⟩ = verString (bumpMicro ⟨20, 6, 1, none⟩) ∧
      get_next_patch_version ⟨20, 6, 1, none⟩ = "20.6.2") :=
  ⟨⟨(get_next_patch_version_spec ⟨20, 4, 1, some 3⟩).1 (by decide), by decide⟩,
   ⟨(get_next_patch_version_spec ⟨20, 6, 1, none⟩).2 rfl, by decide⟩⟩

/-- C10: with `develop = true`, a version that already carries a dev marker is
written exactly as it is (no additional ".dev1" appended); the ".dev1" suffix
is appended exactly when the input version has no dev marker and the develop
flag is set. -/
theorem update_version_string_develop (v : PVersion) (d : Bool) :
    (checkDevelop v = true → update_version_string v true = verString v) ∧
    (v.dev = none ∧ d = true →
      update_version_string v d = verString v ++ ".dev1") ∧
    (v.dev ≠ none ∨ d = false → update_version_string v d = verString v) := by
  refine ⟨?_, ?_, ?_⟩
  · intro hd
    simp [update_version_string, hd]
  · rintro ⟨h1, h2⟩
    subst h2
    simp [update_version_string, checkDevelop, h1]
  · rintro (h | h)
    · rcases hd : v.dev with _ | n
      · exact absurd hd h
      · cases d <;> simp [update_version_string, checkDevelop, hd]
    · subst h
      simp [update_version_string]

/-- Witness for C10: updating to 21.6.2.dev1 with develop flag set writes
exactly "21.6.2.dev1", and updating to 21.6.2 (no dev marker) with the flag
set appends ".dev1". -/
theorem update_version_string_develop_witness :
    (update_version_string ⟨21, 6, 2, some 1⟩ true = verString ⟨21, 6, 2, some 1⟩ ∧
      update_version_string ⟨21, 6, 2, some 1⟩ true = "21.6.2.dev1") ∧
    update_version_string ⟨21, 6, 2, none⟩ true = verString ⟨21, 6, 2, none⟩ ++ ".dev1" :=
  ⟨⟨(update_version_string_develop ⟨21, 6, 2, some 1⟩ true).1 rfl, by decide⟩,
   (update_version_string_develop ⟨21, 6, 2, none⟩ true).2.1 ⟨rfl, rfl⟩⟩

/-- Python's `\s` character class over the characters occurring in commit
messages: space, tab, newline, carriage return, vertical tab, form feed. -/
def isPySpace (c : Char) : Bool :=
  c = ' ' || c = '\t' || c = '\n' || c = '\r' || c.toNat = 11 || c.toNat = 12

/-- The character class `[:|-]` of the classifier's pattern: colon, pipe
or hyphen. -/
def isSep (c : Char) : Bool :=
  c = ':' || c = '|' || c = '-'

/-- Lower-casing of a character list (ASCII case folding, as `re.I` uses on
these inputs). -/
def lower (l : List Char) : List Char :=
  l.map Char.toLower

/-- Case-insensitively strip the literal `m` from the front of `msg`,
returning the remainder on success. -/
def stripCI : List Char → List Char → Option (List Char)
  | [], msg => some msg
  | _ :: _, [] => none
  | a :: as, b :: bs => if a.toLower = b.toLower then stripCI as bs else none

/-- Anchored match of the classifier's pattern of
`conventional_commits.py` line 128, `re.compile(fr'{message}\s?[:|-]', re.I)`
applied with `.match`: the literal match text, then an optional single
whitespace character, then a mandatory colon, pipe or hyphen.  Returns
`match.group(0)`: the actual matched text taken from `msg`.  The regex
backtracks `\s?` to empty when no separator follows the whitespace, but a
whitespace character is never a separator, so that branch always fails.
The embedding treats the match text as a literal, which is exact for the
alphabetic match texts the configuration uses. -/
def ruleMatch (m msg : List Char) : Option (List Char) :=
  match stripCI m msg with
  | none => none
  | some rest =>
    match rest with
    | [] => none
    | c :: r =>
      if isPySpace c then
        match r with
        | c2 :: _ => if isSep c2 then some (msg.take (m.length + 2)) else none
        | [] => none
      else if isSep c then some (msg.take (m.length + 1)) else none

/-- Whether the first list starts the second list. -/
def startsWith : List Char → List Char → Bool
  | [], _ => true
  | _ :: _, [] => false
  | a :: as, b :: bs => a = b && startsWith as bs

/-- Whether the first list occurs contiguously anywhere in the second. -/
def containsList : List Char → List Char → Bool
  | pat, [] => pat.isEmpty
  | pat, c :: rest => startsWith pat (c :: rest) || containsList pat rest

/-- Fuel-driven worker for `replaceAll`; the fuel is the length of the
scanned list, which suffices because every step consumes at least one
character. -/
def replaceAllAux : Nat → List Char → List Char → List Char
  | 0, s, _ => s
  | _, [], _ => []
  | fuel + 1, c :: rest, pat =>
    if pat ≠ [] ∧ startsWith pat (c :: rest) = true then
      replaceAllAux fuel (List.drop pat.length (c :: rest)) pat
    else
      c :: replaceAllAux fuel rest pat

/-- Python's `str.replace(pat, '')`: remove every non-overlapping occurrence
of `pat`, scanning left to right.  (The classifier only calls it with a
non-empty pattern, the matched prefix.) -/
def replaceAll (s pat : List Char) : List Char :=
  replaceAllAux s.length s pat

/-- Python's `str.strip()`: drop whitespace from both ends. -/
def pyStrip (s : List Char) : List Char :=
  ((s.dropWhile isPySpace).reverse.dropWhile isPySpace).reverse

/-- `line.split(' ', maxsplit=1)` as used on one `git log --oneline` line
(`conventional_commits.py` line 126): the short hash before the first space
and the message after it.  Such lines always contain a space between hash
and subject. -/
def parseLine (l : List Char) : List Char × List Char :=
  (l.takeWhile (fun c => c ≠ ' '), (l.dropWhile (fun c => c ≠ ' ')).drop 1)

/-- One record of the `commit_types` list of the changelog configuration:
a match text (`message`) and a section label (`group`). -/
structure CommitType where
  message : List Char
  group : List Char
deriving DecidableEq

/-- The commit link base `f'{ADDRESS}{space}/{project}/commit/'`
(`conventional_commits.py` line 121). -/
def commitLink (space project : List Char) : List Char :=
  ("https://github.com/").data ++ space ++ ("/").data ++ project ++ ("/commit/").data

/-- One rendered entry `f'{cleaned_msg} [{hash}]({commit_link}{hash})'`
(`conventional_commits.py` lines 140-143). -/
def renderEntry (cleaned hash link : List Char) : List Char :=
  cleaned ++ (" [").data ++ hash ++ ("](").data ++ link ++ hash ++ (")").data

/-- The insertion-ordered dictionary from group label to entry list. -/
abbrev CommitDict := List (List Char × List (List Char))

/-- Appending an entry to a group of the dictionary: a fresh group label is
added at the end, as Python dict insertion does. -/
def dictAppend : CommitDict → List Char → List Char → CommitDict
  | [], g, e => [(g, [e])]
  | (k, v) :: rest, g, e =>
    if k = g then (k, v ++ [e]) :: rest else (k, v) :: dictAppend rest g e

/-- Lookup of a group label in the dictionary. -/
def dictFind : CommitDict → List Char → Option (List (List Char))
  | [], _ => none
  | (k, v) :: rest, g => if k = g then some v else dictFind rest g

/-- One iteration of the inner rule loop of `ChangelogBuilder._sort_commits`
(`conventional_commits.py` lines 127-144): when the rule's pattern matches
the message, the matched text is removed from the message by `str.replace`,
the result is stripped, rendered, and appended to the rule's group. -/
def commitStep (link hash msg : List Char) (d : CommitDict) (ct : CommitType) :
    CommitDict :=
  match ruleMatch ct.message msg with
  | some matched =>
      dictAppend d ct.group (renderEntry (pyStrip (replaceAll msg matched)) hash link)
  | none => d

/-- The per-line part of `ChangelogBuilder._sort_commits`
(`conventional_commits.py` lines 125-144): the line is split once at the
first space, and then EVERY rule is tried in order — the source has no
`break` — appending one rendered entry per matching rule. -/
def processCommit (cts : List CommitType) (link : List Char)
    (d : CommitDict) (line : List Char) : CommitDict :=
  cts.foldl (commitStep link (parseLine line).1 (parseLine line).2) d

/-- `ChangelogBuilder._sort_commits` (`conventional_commits.py` lines
100-148): fold all log lines into the dictionary; when the dictionary ends
up empty the source warns "No conventional commits found." and calls
`sys.exit(1)`, modelled as `none`. -/
def sortCommits (cts : List CommitType) (space project : List Char)
    (lines : List (List Char)) : Option CommitDict :=
  let d := lines.foldl (processCommit cts (commitLink space project)) []
  if d = [] then none else some d

/-- C1: the claim says only the first matching rule is applied and scanning
stops, so a commit contributes exactly one entry; but the source loop lacks
a `break`, so for two rules both matching "add:" the single commit
"abc1234 add: foo" is appended once per matching rule — once under
"Added:" and once more under "Changed:". -/
theorem sort_commits_applies_every_matching_rule :
    sortCommits [⟨"add".data, "Added:".data⟩, ⟨"add".data, "Changed:".data⟩]
        ("greenbone".data) ("pontos".data) ["abc1234 add: foo".data] =
      some
        [("Added:".data,
            ["foo [abc1234](https://github.com/greenbone/pontos/commit/abc1234)".data]),
          ("Changed:".data,
            ["foo [abc1234](https://github.com/greenbone/pontos/commit/abc1234)".data])] := by
  decide

/-- A dictionary append never yields the empty dictionary. -/
theorem dictAppend_ne_nil (d : CommitDict) (g e : List Char) :
    dictAppend d g e ≠ [] := by
  cases d with
  | nil => simp [dictAppend]
  | cons p rest =>
    obtain ⟨k, v⟩ := p
    by_cases h : k = g <;> simp [dictAppend, h]

/-- A rule that does not match leaves the dictionary unchanged. -/
theorem commitStep_of_none (link hash msg : List Char) (d : CommitDict)
    (ct : CommitType) (h : ruleMatch ct.message msg = none) :
    commitStep link hash msg d ct = d := by
  simp [commitStep, h]

/-- One rule step keeps a non-empty dictionary non-empty. -/
theorem commitStep_preserve (link hash msg : List Char) (d : CommitDict)
    (ct : CommitType) (h : d ≠ []) : commitStep link hash msg d ct ≠ [] := by
  cases hm : ruleMatch ct.message msg with
  | none => simpa [commitStep, hm] using h
  | some matched =>
    simpa [commitStep, hm] using dictAppend_ne_nil d ct.group _

/-- The whole rule loop keeps a non-empty dictionary non-empty. -/
theorem foldl_commitStep_preserve (link hash msg : List Char)
    (cts : List CommitType) (d : CommitDict) (h : d ≠ []) :
    cts.foldl (commitStep link hash msg) d ≠ [] := by
  induction cts generalizing d with
  | nil => simpa using h
  | cons c0 rest ih =>
    simp only [List.foldl_cons]
    exact ih _ (commitStep_preserve link hash msg d c0 h)

/-- If none of the rules matches the message, the rule loop is the
identity on the dictionary. -/
theorem foldl_commitStep_id (link hash msg : List Char)
    (cts : List CommitType) (d : CommitDict)
    (h : ∀ ct ∈ cts, ruleMatch ct.message msg = none) :
    cts.foldl (commitStep link hash msg) d = d := by
  induction cts generalizing d with
  | nil => rfl
  | cons c0 rest ih =>
    simp only [List.foldl_cons]
    rw [commitStep_of_none link hash msg d c0 (h c0 (by simp))]
    exact ih d (fun ct hct => h ct (by simp [hct]))

/-- If some rule matches the message, the rule loop produces a non-empty
dictionary. -/
theorem foldl_commitStep_ne_of_match (link hash msg : List Char)
    (cts : List CommitType) (d : CommitDict)
    (h : ∃ ct ∈ cts, ruleMatch ct.message msg ≠ none) :
    cts.foldl (commitStep link hash msg) d ≠ [] := by
  induction cts generalizing d with
  | nil =>
    rcases h with ⟨ct, hmem, _⟩
    cases hmem
  | cons c0 rest ih =>
    simp only [List.foldl_cons]
    rcases h with ⟨ct, hmem, hm⟩
    rcases List.mem_cons.mp hmem with rfl | hmem2
    · cases hm2 : ruleMatch ct.message msg with
      | none => exact absurd hm2 hm
      | some matched =>
        refine foldl_commitStep_preserve link hash msg rest _ ?_
        simpa [commitStep, hm2] using dictAppend_ne_nil d ct.group _
    · exact ih _ ⟨ct, hmem2, hm⟩

/-- A non-empty dictionary stays non-empty across all remaining lines. -/
theorem foldl_lines_preserve (cts : List CommitType) (link : List Char)
    (lines : List (List Char)) (d : CommitDict) (h : d ≠ []) :
    lines.foldl (processCommit cts link) d ≠ [] := by
  induction lines generalizing d with
  | nil => simpa using h
  | cons l ls ih =>
    simp only [List.foldl_cons]
    exact ih _ (foldl_commitStep_preserve _ _ _ _ _ h)

/-- Folding all lines from the empty dictionary yields the empty dictionary
exactly when no line matches any rule. -/
theorem foldl_lines_eq_nil_iff (cts : List CommitType) (link : List Char)
    (lines : List (List Char)) :
    lines.foldl (processCommit cts link) [] = [] ↔
      ∀ l ∈ lines, ∀ ct ∈ cts, ruleMatch ct.message (parseLine l).2 = none := by
  induction lines with
  | nil => simp
  | cons l ls ih =>
    simp only [List.foldl_cons]
    by_cases hall : ∀ ct ∈ cts, ruleMatch ct.message (parseLine l).2 = none
    · have hid : processCommit cts link [] l = [] :=
        foldl_commitStep_id link (parseLine l).1 (parseLine l).2 cts [] hall
      rw [hid, ih]
      constructor
      · intro h
        intro l2 hl2
        rcases List.mem_cons.mp hl2 with rfl | hl2
        · exact hall
        · exact h l2 hl2
      · intro h l2 hl2
        exact h l2 (by simp [hl2])
    · push_neg at hall
      rcases hall with ⟨ct, hct, hm⟩
      have hne : processCommit cts link [] l ≠ [] :=
        foldl_commitStep_ne_of_match link (parseLine l).1 (parseLine l).2 cts []
          ⟨ct, hct, hm⟩
      constructor
      · intro h
        exact absurd h (foldl_lines_preserve cts link ls _ hne)
      · intro h
        exact absurd (h l (by simp) ct hct) hm

/-- C7: commit classification exits fatally exactly when no line matches any
rule (in particular on an empty input list), and a line matching no rule
leaves the dictionary untouched — it is silently dropped, not an error. -/
theorem sort_commits_fatal_iff_no_match (cts : List CommitType)
    (space project : List Char) (lines : List (List Char)) :
    (sortCommits cts space project lines = none ↔
      ∀ l ∈ lines, ∀ ct ∈ cts, ruleMatch ct.message (parseLine l).2 = none) ∧
    (∀ (d : CommitDict) (line : List Char),
      (∀ ct ∈ cts, ruleMatch ct.message (parseLine line).2 = none) →
      processCommit cts (commitLink space project) d line = d) := by
  constructor
  · rw [← foldl_lines_eq_nil_iff cts (commitLink space project) lines]
    by_cases hd : lines.foldl (processCommit cts (commitLink space project)) [] = [] <;>
      simp [sortCommits, hd]
  · intro d line h
    exact foldl_commitStep_id _ _ _ cts d h

/-- Witness for C7: the single unmatched line "abc docs: x" makes
classification fatal, and processing that same line on an existing
dictionary leaves it unchanged. -/
theorem sort_commits_fatal_iff_no_match_witness :
    sortCommits [⟨"fix".data, "Fixed:".data⟩] ("g".data) ("p".data)
        ["abc docs: x".data] = none ∧
    processCommit [⟨"fix".data, "Fixed:".data⟩] (commitLink ("g".data) ("p".data))
        [("Fixed:".data, ["y".data])] ("abc docs: x".data) =
      [("Fixed:".data, ["y".data])] :=
  ⟨(sort_commits_fatal_iff_no_match [⟨"fix".data, "Fixed:".data⟩] ("g".data) ("p".data)
      ["abc docs: x".data]).1.mpr (by decide),
   (sort_commits_fatal_iff_no_match [⟨"fix".data, "Fixed:".data⟩] ("g".data) ("p".data)
      ["abc docs: x".data]).2 _ _ (by decide)⟩

/-- The matching rule exactly as the claim words it: the message,
lower-cased, starts with the rule's match-text followed by an optional colon
or hyphen and optional whitespace.  This definition follows the spec text
and is compared against the source matcher `ruleMatch`. -/
def SpecClaimPred (m msg : List Char) : Prop :=
  ∃ pre sepPart wsPart rest,
    msg = pre ++ sepPart ++ wsPart ++ rest ∧
    lower pre = lower m ∧
    (sepPart = [] ∨ sepPart = [':'] ∨ sepPart = ['-']) ∧
    (wsPart = [] ∨ ∃ w, wsPart = [w] ∧ isPySpace w = true)

/-- What the source matcher actually requires: the message starts
(case-insensitively) with the match-text, then an optional single whitespace
character, then a MANDATORY colon, pipe or hyphen. -/
def AmendedPred (m msg : List Char) : Prop :=
  (∃ pre sep rest,
      msg = pre ++ sep :: rest ∧ lower pre = lower m ∧ isSep sep = true) ∨
  (∃ pre w sep rest,
      msg = pre ++ w :: sep :: rest ∧ lower pre = lower m ∧
      isPySpace w = true ∧ isSep sep = true)

/-- Successful case-insensitive stripping decomposes the message. -/
theorem stripCI_some (m : List Char) : ∀ (msg rest : List Char),
    stripCI m msg = some rest → ∃ pre, msg = pre ++ rest ∧ lower pre = lower m := by
  induction m with
  | nil =>
    intro msg rest h
    simp only [stripCI, Option.some.injEq] at h
    exact ⟨[], by simp [h], rfl⟩
  | cons a as ih =>
    intro msg rest h
    cases msg with
    | nil => simp [stripCI] at h
    | cons b bs =>
      by_cases hab : a.toLower = b.toLower
      · rw [show stripCI (a :: as) (b :: bs) = stripCI as bs from by
            simp [stripCI, hab]] at h
        obtain ⟨pre, h1, h2⟩ := ih bs rest h
        exact ⟨b :: pre, by simp [h1], by simp [lower] at h2 ⊢; exact ⟨hab.symm, h2⟩⟩
      · simp [stripCI, hab] at h

/-- Case-insensitive stripping succeeds on any case-equal decomposition. -/
theorem stripCI_append (m : List Char) : ∀ (pre t : List Char),
    lower pre = lower m → stripCI m (pre ++ t) = some t := by
  induction m with
  | nil =>
    intro pre t h
    cases pre with
    | nil => simp [stripCI]
    | cons p ps => simp [lower] at h
  | cons a as ih =>
    intro pre t h
    cases pre with
    | nil => simp [lower] at h
    | cons p ps =>
      simp only [lower, List.map_cons, List.cons.injEq] at h
      simp only [List.cons_append, stripCI, h.1.symm, if_pos]
      have := ih ps t (by simpa [lower] using h.2)
      simpa [h.1] using this

/-- A separator character is never a whitespace character. -/
theorem isSep_not_pySpace (c : Char) (h : isSep c = true) : isPySpace c = false := by
  have h2 : (c = ':' ∨ c = '|') ∨ c = '-' := by
    simpa [isSep] using h
  rcases h2 with (rfl | rfl) | rfl <;> decide

/-- The source matcher is equivalent to the amended predicate: match-text,
an optional single whitespace character, then a mandatory separator. -/
theorem ruleMatch_isSome_iff (m msg : List Char) :
    (ruleMatch m msg).isSome = true ↔ AmendedPred m msg := by
  constructor
  · intro h
    unfold ruleMatch at h
    cases hs : stripCI m msg with
    | none => rw [hs] at h; simp at h
    | some rest =>
      rw [hs] at h
      obtain ⟨pre, hpre, hlow⟩ := stripCI_some m msg rest hs
      cases rest with
      | nil => simp at h
      | cons c r =>
        by_cases hws : isPySpace c = true
        · cases r with
          | nil => simp [hws] at h
          | cons c2 r2 =>
            by_cases hsep : isSep c2 = true
            · exact Or.inr ⟨pre, c, c2, r2, by rw [hpre], hlow, hws, hsep⟩
            · simp [hws, hsep] at h
        · by_cases hsep : isSep c = true
          · exact Or.inl ⟨pre, c, r, by rw [hpre], hlow, hsep⟩
          · simp [hws, hsep] at h
  · intro h
    rcases h with ⟨pre, sep, rest, hmsg, hlow, hsep⟩ |
      ⟨pre, w, sep, rest, hmsg, hlow, hws, hsep⟩
    · have hs : stripCI m msg = some (sep :: rest) := by
        rw [hmsg]
        exact stripCI_append m pre (sep :: rest) hlow
      unfold ruleMatch
      rw [hs]
      simp [isSep_not_pySpace sep hsep, hsep]
    · have hs : stripCI m msg = some (w :: sep :: rest) := by
        rw [hmsg]
        exact stripCI_append m pre (w :: sep :: rest) hlow
      unfold ruleMatch
      rw [hs]
      simp [hws, hsep]

/-- C6 counterexample: for the rule match-text "Added" and the message
"added fixed the thing", the claim's matching rule (separator and whitespace
both optional) holds, yet the source regex `Added\s?[:|-]` does not match —
the separator is mandatory there.  So the claimed equivalence is false. -/
theorem ruleMatch_spec_claim_counterexample :
    ¬ (((ruleMatch ("Added".data) ("added fixed the thing".data)).isSome = true) ↔
        SpecClaimPred ("Added".data) ("added fixed the thing".data)) := by
  intro h
  have hspec : SpecClaimPred ("Added".data) ("added fixed the thing".data) :=
    ⟨"added".data, [], [' '], "fixed the thing".data, by decide, by decide,
      Or.inl rfl, Or.inr ⟨' ', rfl, by decide⟩⟩
  exact absurd (h.mpr hspec) (by decide)

/-- C6 amended: a CommitTypeRule matches exactly when the message starts,
case-insensitively, with the rule's match-text followed by an optional
single whitespace character and then a mandatory colon, pipe or hyphen; the
claim's concrete example holds: rule {match "Added", group "Added:"} on log
line "abc1234 added: fixed the thing" yields the entry
"fixed the thing [abc1234](commit-link abc1234)" under "Added:". -/
theorem ruleMatch_amended :
    (∀ m msg : List Char, (ruleMatch m msg).isSome = true ↔ AmendedPred m msg) ∧
    sortCommits [⟨"Added".data, "Added:".data⟩] ("greenbone".data) ("pontos".data)
        ["abc1234 added: fixed the thing".data] =
      some [("Added:".data,
        ["fixed the thing [abc1234](https://github.com/greenbone/pontos/commit/abc1234)".data])] :=
  ⟨ruleMatch_isSome_iff, by decide⟩

/-- Witness for C6 (amended): the source matcher accepts "added: fixed the
thing" for match-text "Added", so the amended predicate holds there. -/
theorem ruleMatch_amended_witness :
    AmendedPred ("Added".data) ("added: fixed the thing".data) :=
  (ruleMatch_amended.1 ("Added".data) ("added: fixed the thing".data)).mp (by decide)

/-- Embedding of `ChangelogBuilder._build_changelog_file`
(`conventional_commits.py` lines 150-196): fixed two-paragraph header, a
versioned heading with today's date or an Unreleased heading, one section
per configured commit type present in the dictionary, and the comparison
footer.  The footer follows the source literally: with both versions the
line is `\n[next]: <base>/compare/<current>...<next>`; with only a current
version, `pre` stays `\n[Unreleased]: ` and `diff` is
`f'\n{current}...HEAD'` — including its leading newline; with no current
version `diff` is `'???...HEAD'`.  `none` stands for Python `None` (both
option fields are either `None` or a non-empty version string in the
release flow). -/
def buildChangelog (space project : List Char) (nextV currentV : Option (List Char))
    (today : List Char) (cts : List CommitType) (d : CommitDict) : List Char :=
  let header :=
    ("# Changelog\n\nAll notable changes to this project will be documented in this file.\n\n").data
  let headSection :=
    match nextV with
    | some nv => ("## [").data ++ nv ++ ("] - ").data ++ today ++ ("\n").data
    | none => ("## [Unreleased]\n\n").data
  let body :=
    cts.foldl
      (fun acc ct =>
        match dictFind d ct.group with
        | some msgs =>
            acc ++ ("\n## ").data ++ ct.group ++ ("\n").data ++
              msgs.foldl (fun a msg => a ++ ("* ").data ++ msg ++ ("\n").data) []
        | none => acc)
      []
  let compareLink :=
    ("https://github.com/").data ++ space ++ ("/").data ++ project ++ ("/compare/").data
  let footer :=
    match nextV, currentV with
    | some nv, some cv =>
        ("\n[").data ++ nv ++ ("]: ").data ++ compareLink ++ cv ++ ("...").data ++ nv
    | none, some cv =>
        ("\n[Unreleased]: ").data ++ compareLink ++ ("\n").data ++ cv ++ ("...HEAD").data
    | _, none =>
        ("\n[Unreleased]: ").data ++ compareLink ++ ("???...HEAD").data
  header ++ headSection ++ body ++ footer

/-- C3: evaluated on a one-entry dictionary with space "greenbone", project
"pontos": with both versions the footer contains
"[1.2.3]: https://github.com/greenbone/pontos/compare/1.2.2...1.2.3" and
with neither version it contains "compare/???...HEAD", as claimed; but with
only a current version the stray leading newline of `f'\n{current}...HEAD'`
splits the footer across two lines: the document contains
"compare/\n1.2.2...HEAD" and never the claimed single-line
"compare/1.2.2...HEAD". -/
theorem build_changelog_footer_cases :
    (containsList
        ("[1.2.3]: https://github.com/greenbone/pontos/compare/1.2.2...1.2.3".data)
        (buildChangelog ("greenbone".data) ("pontos".data)
          (some ("1.2.3".data)) (some ("1.2.2".data)) ("2022-07-15".data)
          [⟨"add".data, "Added:".data⟩]
          [("Added:".data, ["x [h](l)".data])]) = true) ∧
    (containsList ("compare/???...HEAD".data)
        (buildChangelog ("greenbone".data) ("pontos".data) none none
          ("2022-07-15".data) [⟨"add".data, "Added:".data⟩]
          [("Added:".data, ["x [h](l)".data])]) = true) ∧
    (containsList ("compare/\n1.2.2...HEAD".data)
        (buildChangelog ("greenbone".data) ("pontos".data) none
          (some ("1.2.2".data)) ("2022-07-15".data)
          [⟨"add".data, "Added:".data⟩]
          [("Added:".data, ["x [h](l)".data])]) = true) ∧
    (containsList ("compare/1.2.2...HEAD".data)
        (buildChangelog ("greenbone".data) ("pontos".data) none
          (some ("1.2.2".data)) ("2022-07-15".data)
          [⟨"add".data, "Added:".data⟩]
          [("Added:".data, ["x [h](l)".data])]) = false) := by
  refine ⟨by decide, by decide, by decide, by decide⟩

/-- The externally visible mutations `prepare` can perform, in the order
the source performs them. -/
inductive Mutation where
  | versionFiles
  | changelogFile
  | commitCreated
  | tagCreated
  | releaseText
deriving DecidableEq, Repr

/-- How a `prepare` run ends: `fatalExit` models `sys.exit(1)`,
`returnedFalse` the early `return False`, `success` the final
`return True`. -/
inductive PrepOutcome where
  | fatalExit
  | returnedFalse
  | success
deriving DecidableEq, Repr

/-- The inputs of one `prepare` run after release-version selection.
External collaborators are modelled as oracles: `updateVersionOk` is the
result of `update_version`, `commitsClassified` whether the conventional
commit classifier found commits, `unreleasedFound` whether either changelog
search located an unreleased section. -/
structure PrepareEnv where
  gitTagPrefix : String
  releaseVersion : String
  gitTags : List String
  updateVersionOk : Bool
  conventionalCommits : Bool
  commitsClassified : Bool
  unreleasedFound : Bool

/-- Embedding of the control flow of `prepare` (`pontos/release/prepare.py`
lines 42-179).  Everything before the guardian (signing-key lookup, project
name lookup) only reads state.  The guardian compares the computed tag
`git_tag_prefix + release_version` against the existing tags and exits
before any mutation when it is taken.  Afterwards, mutations are recorded
in source order: version files, then the changelog path (conventional:
write changelog file and commit it; manual: rewrite CHANGELOG.md), then the
release commit, the tag, and the release-notes file. -/
def prepare (e : PrepareEnv) : PrepOutcome × List Mutation :=
  let gitVersion := e.gitTagPrefix ++ e.releaseVersion
  if gitVersion ∈ e.gitTags then
    (.fatalExit, [])
  else if e.updateVersionOk = false then
    (.returnedFalse, [])
  else if e.conventionalCommits then
    if e.commitsClassified then
      (.success,
        [Mutation.versionFiles, Mutation.changelogFile, Mutation.commitCreated,
          Mutation.commitCreated, Mutation.tagCreated, Mutation.releaseText])
    else
      (.fatalExit, [Mutation.versionFiles])
  else
    if e.unreleasedFound then
      (.success,
        [Mutation.versionFiles, Mutation.changelogFile, Mutation.commitCreated,
          Mutation.tagCreated, Mutation.releaseText])
    else
      (.fatalExit, [Mutation.versionFiles])

/-- C9: when the computed tag is already among the existing git tags,
`prepare` exits fatally having performed no mutation at all: no version
file rewrite, no changelog write, no commit, no tag. -/
theorem prepare_tag_collision_aborts_before_mutation (e : PrepareEnv)
    (h : e.gitTagPrefix ++ e.releaseVersion ∈ e.gitTags) :
    prepare e = (.fatalExit, []) := by
  simp [prepare, h]

/-- Witness for C9: existing tags ["v1.0.0"], tag prefix "v", release
version "1.0.0": prepare aborts with no mutations. -/
theorem prepare_tag_collision_aborts_before_mutation_witness :
    prepare ⟨"v", "1.0.0", ["v1.0.0"], true, false, false, true⟩ =
      (.fatalExit, []) :=
  prepare_tag_collision_aborts_before_mutation
    ⟨"v", "1.0.0", ["v1.0.0"], true, false, false, true⟩ (by decide)
